import Mathlib

/-!
Shallow embedding of the SimpleBrain component (src/necessary/App.tsx) of the
BrainWave repository: the polling session (`fetchData`), the webcam
eye-direction/blink estimator (`processFrame` vote logic, `calculateBrightness`),
the activity smoother (`updateBrainValues`) and the dominance classifier
(`getBrainSide`).  Machine numbers are modelled as exact rationals (the
JavaScript source performs only +, -, *, /, abs, max, min and comparisons on
doubles; all claim-relevant constants are decimal literals).  React `useState`
state is modelled by explicit state records; each event handler becomes a pure
state-transition function.
-/

namespace BrainWave

/-- Eye direction values used by the component (`'left' | 'right' | 'center'`). -/
inductive EyePos where
  | left
  | right
  | center
deriving DecidableEq, Fintype

/-- The `brainData` record: left/right activity scalars and the derived state
label (`"analytical" | "creative" | "balanced"`).  Fields the claims do not
touch (`blink`, `eye_position`) are omitted. -/
structure BrainData where
  left : ℚ
  right : ℚ
  state : String
deriving DecidableEq

/-! ## Activity smoother (`updateBrainValues`, App.tsx lines 421-462)

The source reads `brainData.left/right`, computes direction-dependent new
values, adds `Math.random() * 0.03 - 0.015` jitter to each, clamps with
`Math.max(0.1, Math.min(0.95, x))`, and commits (via `setBrainData`) only if
either change exceeds 0.001; the committed record recomputes `state`.
The two `Math.random()` draws are passed in explicitly as `rL rR ∈ [0, 1)`. -/

/-- Jitter construction from a `Math.random()` draw: `r * 0.03 - 0.015`. -/
def jitterOf (r : ℚ) : ℚ := r * 0.03 - 0.015

/-- `Math.max(0.1, Math.min(0.95, x))` from the source. -/
def clampActivity (x : ℚ) : ℚ := max 0.1 (min 0.95 x)

/-- Derived state label:
`newLeft > newRight * 1.2 ? "analytical" : newRight > newLeft * 1.2 ? "creative" : "balanced"`. -/
def stateLabel (l r : ℚ) : String :=
  if l > r * 1.2 then "analytical" else if r > l * 1.2 then "creative" else "balanced"

/-- `newLeftValue` before jitter, per the source's three branches on `eyePosition`. -/
def rawLeft (d : EyePos) (s : BrainData) : ℚ :=
  match d with
  | .left => s.left - (s.left - 0.2) * 0.2
  | .right => s.left + (0.9 - s.left) * 0.2
  | .center => s.left + (0.6 - s.left) * 0.1

/-- `newRightValue` before jitter, per the source's three branches on `eyePosition`. -/
def rawRight (d : EyePos) (s : BrainData) : ℚ :=
  match d with
  | .left => s.right + (0.9 - s.right) * 0.2
  | .right => s.right - (s.right - 0.2) * 0.2
  | .center => s.right + (0.65 - s.right) * 0.1

/-- One smoothing tick, `updateBrainValues`: compute candidates, jitter, clamp,
and commit only when `|ΔL| > 0.001 || |ΔR| > 0.001` (otherwise `setBrainData`
is not called: the state is returned unchanged and no re-render happens). -/
def updateBrainValues (d : EyePos) (rL rR : ℚ) (s : BrainData) : BrainData :=
  let newLeftValue := clampActivity (rawLeft d s + jitterOf rL)
  let newRightValue := clampActivity (rawRight d s + jitterOf rR)
  if |newLeftValue - s.left| > 0.001 ∨ |newRightValue - s.right| > 0.001 then
    { left := newLeftValue, right := newRightValue,
      state := stateLabel newLeftValue newRightValue }
  else s

/-- A run of smoothing ticks: each element of the list supplies the direction
active during that tick and the two `Math.random()` draws. -/
def runTicks (ticks : List (EyePos × ℚ × ℚ)) (s : BrainData) : BrainData :=
  ticks.foldl (fun st t => updateBrainValues t.1 t.2.1 t.2.2 st) s

/-! Spec-side definitions for the smoother, following the words of the claim
(C5): raw formulas, jitter in [-0.015, 0.015], clamp to [0.1, 0.95], label by
the 1.2-ratio rule.  These are compared with the source-derived functions. -/

/-- Modelled from the claim's words: the pre-jitter pair of one tick.
`center` is described as moving 0.1 of the gap toward the targets. -/
def claimRawPair (d : EyePos) (l r : ℚ) : ℚ × ℚ :=
  match d with
  | .left => (l - (l - 0.2) * 0.2, r + (0.9 - r) * 0.2)
  | .right => (l + (0.9 - l) * 0.2, r - (r - 0.2) * 0.2)
  | .center => (l + 0.1 * (0.6 - l), r + 0.1 * (0.65 - r))

/-- Modelled from the claim's words: the label rule. -/
def claimLabel (l r : ℚ) : String :=
  if l > r * 1.2 then "analytical" else if r > l * 1.2 then "creative" else "balanced"

/-- Modelled from the claim's words (C5): one full tick built only from the
claim's formulas — raw update, independent jitter, clamp to [0.1, 0.95],
label by the 1.2-ratio rule — with the C6 skip rule included so that the
comparison with the source tick is an exact equality. -/
def claimTick (d : EyePos) (jL jR : ℚ) (s : BrainData) : BrainData :=
  let pair := claimRawPair d s.left s.right
  let nL := max 0.1 (min 0.95 (pair.1 + jL))
  let nR := max 0.1 (min 0.95 (pair.2 + jR))
  if |nL - s.left| > 0.001 ∨ |nR - s.right| > 0.001 then
    { left := nL, right := nR, state := claimLabel nL nR }
  else s

/-! ## Dominance classifier (`getBrainSide`, App.tsx lines 689-699) -/

/-- `getBrainSide`: `null` without brain data, else the additive-0.1 rule. -/
def getBrainSide (od : Option BrainData) : Option String :=
  match od with
  | none => none
  | some d =>
    if d.left > d.right + 0.1 then some "left"
    else if d.right > d.left + 0.1 then some "right"
    else some "balanced"

/-! ## Polling session (`fetchData` / `handleReset`, App.tsx lines 97-145, 669-686)

State per the component's `useState` hooks.  One `fetchData` invocation is a
pure transition given the outcome of the two data endpoints and the current
`Date.now()`.  React semantics made explicit: inside one invocation,
`errorCount` and `lastErrorTime` read from the closure are the values captured
when the effect (re-)ran, i.e. the pre-invocation state; `setErrorCount(prev =>
prev + 1)` is a functional update applied to the latest queued value, and the
`handleReset` call queues `setConnected(false)`, `setBrainData(null)`,
`setErrorCount(0)` after it. -/

/-- Connection-session state. -/
structure Session where
  connected : Bool
  brainData : Option BrainData
  errorCount : ℤ
  lastErrorTime : ℤ
deriving DecidableEq

/-- Outcome of one 200ms data poll:
* `success d` — `/api/data` (or the `/api/mental_state` fallback) returned a
  well-formed non-error payload `d`;
* `failResp` — both endpoints responded but neither yielded a usable payload
  (no exception thrown);
* `throwErr` — the fetch threw and control reached the `catch` block. -/
inductive PollOutcome where
  | success (d : BrainData)
  | failResp
  | throwErr
deriving DecidableEq

/-- One invocation of `fetchData` at time `now` (integral milliseconds, as
returned by `Date.now()`). -/
def fetchData (s : Session) (o : PollOutcome) (now : ℤ) : Session :=
  match o with
  | .success d => { s with brainData := some d, errorCount := 0 }
  | .failResp =>
    let s1 :=
      if now - s.lastErrorTime > 5000 then
        { s with errorCount := s.errorCount + 1, lastErrorTime := now }
      else s
    if s.errorCount > 5 then
      { connected := false, brainData := none, errorCount := 0,
        lastErrorTime := s1.lastErrorTime }
    else s1
  | .throwErr => { s with errorCount := s.errorCount + 1 }

/-- A sequence of polls, each with its outcome and timestamp. -/
def pollRun (s : Session) (polls : List (PollOutcome × ℤ)) : Session :=
  polls.foldl (fun st p => fetchData st p.1 p.2) s

/-- Session state immediately after a successful `handleConnect`:
`setConnected(true); setErrorCount(0)` with no brain data yet; the page loads
with `lastErrorTime = 0`. -/
def freshSession : Session :=
  { connected := true, brainData := none, errorCount := 0, lastErrorTime := 0 }

/-! ## Eye-direction estimator (`processFrame` vote logic, App.tsx lines 189-292)

Local mutable state of `startEyeTracking`: `eyePositionCounter = { left: 0,
right: 0, center: 5 }` together with the committed `eyePosition` React state
(initially `'center'`).  Counters are JavaScript numbers holding integers
(increments by 1, `Math.max(0, x - 1)` decrements, resets to 0/2), modelled
as `ℤ`. -/

/-- The three direction-vote counters. -/
structure VoteCounter where
  left : ℤ
  right : ℤ
  center : ℤ
deriving DecidableEq

/-- Estimator state: counters plus the committed `eyePosition`. -/
structure EyeTrack where
  counter : VoteCounter
  direction : EyePos
deriving DecidableEq

/-- Brightness sample of the three regions of one frame. -/
structure Brightness where
  left : ℚ
  center : ℚ
  right : ℚ
deriving DecidableEq

/-- JavaScript comparison `a / b > t` for `b ≥ 0`, as exact arithmetic.
When `b = 0` the source divides by zero: `a / 0` is `Infinity` for `a > 0`
(so the comparison is true) and `NaN` for `a = 0` (comparison false). -/
def jsRatioGT (a b t : ℚ) : Prop :=
  (b = 0 ∧ 0 < a) ∨ (b ≠ 0 ∧ t < a / b)

instance (a b t : ℚ) : Decidable (jsRatioGT a b t) := by
  unfold jsRatioGT; infer_instance

/-- Which counter this frame votes for: the source's if/else-if/else chain on
`leftRatio = left / (center * 0.8)`, `rightRatio = right / (center * 0.8)`. -/
def voteTarget (b : Brightness) : EyePos :=
  if jsRatioGT b.left (b.center * 0.8) 1.1 ∧ b.left > b.right * 1.1 then .left
  else if jsRatioGT b.right (b.center * 0.8) 1.1 ∧ b.right > b.left * 1.1 then .right
  else .center

/-- Increment the voted counter, decay the other two with floor 0. -/
def applyVote (p : EyePos) (c : VoteCounter) : VoteCounter :=
  match p with
  | .left =>
    { left := c.left + 1, center := max 0 (c.center - 1), right := max 0 (c.right - 1) }
  | .right =>
    { right := c.right + 1, center := max 0 (c.center - 1), left := max 0 (c.left - 1) }
  | .center =>
    { center := c.center + 1, left := max 0 (c.left - 1), right := max 0 (c.right - 1) }

/-- `Math.max(left, center, right)` over the counters. -/
def maxCount (c : VoteCounter) : ℤ := max c.left (max c.center c.right)

/-- The committed direction at a reset: the source tests
`maxCount === left`, then `=== right`, else `'center'` (both for
`setEyePosition` and for `currentPosition`). -/
def commitDirection (c : VoteCounter) : EyePos :=
  if maxCount c = c.left then .left
  else if maxCount c = c.right then .right
  else .center

/-- Counters after a reset: all zero except the winning direction, set to 2. -/
def resetCounter (w : EyePos) : VoteCounter :=
  match w with
  | .left => { left := 2, right := 0, center := 0 }
  | .right => { left := 0, right := 2, center := 0 }
  | .center => { left := 0, right := 0, center := 2 }

/-- One estimator step for a vote toward `p`: apply the vote; if the largest
counter now exceeds 5, commit that direction and reset the counters. -/
def voteStep (p : EyePos) (s : EyeTrack) : EyeTrack :=
  let c := applyVote p s.counter
  if maxCount c > 5 then
    let w := commitDirection c
    { counter := resetCounter w, direction := w }
  else { counter := c, direction := s.direction }

/-- One processed frame's effect on the estimator state, given the frame's
brightness sample. -/
def processVotes (b : Brightness) (s : EyeTrack) : EyeTrack :=
  voteStep (voteTarget b) s

/-- Initial estimator state: counters `{ left: 0, right: 0, center: 5 }`,
`eyePosition` `'center'`. -/
def initEyeTrack : EyeTrack :=
  { counter := { left := 0, right := 0, center := 5 }, direction := .center }

/-- The estimator states reachable from the initial state by processed frames. -/
inductive Reachable : EyeTrack → Prop where
  | init : Reachable initEyeTrack
  | step (b : Brightness) {s : EyeTrack} : Reachable s → Reachable (processVotes b s)

/-- Read one direction's counter. -/
def counterOf (c : VoteCounter) : EyePos → ℤ
  | .left => c.left
  | .right => c.right
  | .center => c.center

/-! ## Blink flag (`processFrame`, App.tsx lines 234-242)

`prevTotalBrightness` starts at 0 and is updated to the current total on every
processed frame.  When `|total - prev| > 15` the frame sets
`setBlinkDetected(true)` and schedules `setTimeout(() => setBlinkDetected(false), 300)`.
A trace is a list of processed frames `(time, totalBrightness)` with strictly
increasing integral millisecond times; the flag at time `u` is the value of
the last write at or before `u`.  Simultaneous events resolve with the frame's set-true after the
timer's set-false (the rendering callback runs after due timers in the same
event-loop turn); ties are avoided in all concrete inputs below. -/

/-- Times of the frames that cross the blink threshold, given the running
`prevTotalBrightness` (initially 0). -/
def crossingsAux (prev : ℚ) : List (ℤ × ℚ) → List ℤ
  | [] => []
  | (t, tot) :: rest =>
    if |tot - prev| > 15 then t :: crossingsAux tot rest else crossingsAux tot rest

/-- Crossing times of a frame trace. -/
def crossingTimes (frames : List (ℤ × ℚ)) : List ℤ := crossingsAux 0 frames

/-- The blink flag at time `u`: some crossing at `t ≤ u` whose set is not
overridden by any clear firing in `(t, u]` (each crossing at `t'` schedules a
clear at `t' + 300`). -/
def blinkAt (ts : List ℤ) (u : ℤ) : Prop :=
  ∃ t ∈ ts, t ≤ u ∧ ∀ t' ∈ ts, t' + 300 ≤ u → t' + 300 ≤ t

instance (ts : List ℤ) (u : ℤ) : Decidable (blinkAt ts u) := by
  unfold blinkAt; infer_instance

/-! ## Region brightness (`calculateBrightness`, App.tsx lines 396-411)

`for (let i = 0; i < data.length; i += 16)` samples every 4th RGBA pixel;
each sample adds `r*0.299 + g*0.587 + b*0.114` and bumps `count`; the result
is `count > 0 ? sum / count : 0`.  The buffer is a well-formed RGBA array
(length divisible by 4); for such buffers every sampled index is in bounds
(the JavaScript otherwise reads `undefined` and poisons the sum with NaN). -/

/-- The loop: consume R, G, B of the current sample, skip the alpha byte and
the next three pixels (13 more entries), recurse; returns `(sum, count)`. -/
def calcBrightnessGo : List ℚ → ℚ × ℕ
  | r :: g :: b :: rest =>
    let p := calcBrightnessGo (rest.drop 13)
    (r * 0.299 + g * 0.587 + b * 0.114 + p.1, p.2 + 1)
  | _ => (0, 0)
termination_by l => l.length
decreasing_by
  simp only [List.length_cons, List.length_drop]
  omega

/-- `calculateBrightness` on an RGBA byte buffer. -/
def calculateBrightness (data : List ℚ) : ℚ :=
  let p := calcBrightnessGo data
  if p.2 > 0 then p.1 / (p.2 : ℚ) else 0

/-! Spec-side definitions for C9, following the claim's words: the arithmetic
mean over every 4th pixel of `0.299R + 0.587G + 0.114B`. -/

/-- Modelled from the claim's words: perceived luminance of one pixel. -/
def claimLuma (r g b : ℚ) : ℚ := 0.299 * r + 0.587 * g + 0.114 * b

/-- Modelled from the claim's words: the luminances of every 4th pixel
(pixels 0, 4, 8, …, i.e. buffer offsets 16k). -/
def claimSampledLumas (data : List ℚ) : List ℚ :=
  (List.range ((data.length + 15) / 16)).map fun k =>
    claimLuma (data.getD (16 * k) 0) (data.getD (16 * k + 1) 0) (data.getD (16 * k + 2) 0)

/-- Modelled from the claim's words: the arithmetic mean of the sampled
luminances, 0 if no pixel is sampled. -/
def claimMeanBrightness (data : List ℚ) : ℚ :=
  let L := claimSampledLumas data
  if L.length = 0 then 0 else L.sum / (L.length : ℚ)

/-! # Theorems -/

/-- The clamp always lands in [0.1, 0.95]. -/
theorem clampActivity_mem (x : ℚ) :
    0.1 ≤ clampActivity x ∧ clampActivity x ≤ 0.95 := by
  unfold clampActivity
  constructor
  · exact le_max_left _ _
  · refine max_le (by norm_num) (min_le_left _ _)

/-- A committed tick stores both clamped scalars. -/
theorem updateBrainValues_range_step (d : EyePos) (rL rR : ℚ) (s : BrainData)
    (h : updateBrainValues d rL rR s ≠ s) :
    0.1 ≤ (updateBrainValues d rL rR s).left ∧
      (updateBrainValues d rL rR s).left ≤ 0.95 ∧
      0.1 ≤ (updateBrainValues d rL rR s).right ∧
      (updateBrainValues d rL rR s).right ≤ 0.95 := by
  by_cases hc : |clampActivity (rawLeft d s + jitterOf rL) - s.left| > 0.001 ∨
      |clampActivity (rawRight d s + jitterOf rR) - s.right| > 0.001
  · have hres : updateBrainValues d rL rR s =
        { left := clampActivity (rawLeft d s + jitterOf rL),
          right := clampActivity (rawRight d s + jitterOf rR),
          state := stateLabel (clampActivity (rawLeft d s + jitterOf rL))
            (clampActivity (rawRight d s + jitterOf rR)) } := by
      unfold updateBrainValues
      rw [if_pos hc]
    rw [hres]
    exact ⟨(clampActivity_mem _).1, (clampActivity_mem _).2,
      (clampActivity_mem _).1, (clampActivity_mem _).2⟩
  · exfalso
    apply h
    unfold updateBrainValues
    rw [if_neg hc]

/-- A tick maps in-range state to in-range state, commit or skip. -/
theorem updateBrainValues_range_preserve (d : EyePos) (rL rR : ℚ) (s : BrainData)
    (h1 : 0.1 ≤ s.left) (h2 : s.left ≤ 0.95) (h3 : 0.1 ≤ s.right) (h4 : s.right ≤ 0.95) :
    0.1 ≤ (updateBrainValues d rL rR s).left ∧
      (updateBrainValues d rL rR s).left ≤ 0.95 ∧
      0.1 ≤ (updateBrainValues d rL rR s).right ∧
      (updateBrainValues d rL rR s).right ≤ 0.95 := by
  by_cases h : updateBrainValues d rL rR s = s
  · rw [h]; exact ⟨h1, h2, h3, h4⟩
  · exact updateBrainValues_range_step d rL rR s h

/-- C3 (amended): every tick that actually commits stores clamped scalars in
[0.1, 0.95]; consequently, whenever the scalars start inside [0.1, 0.95] they
stay inside that range after any number of smoothing ticks, for any sequence
of directions and any realization of the jitter.  (The unamended claim fails
when the remote-supplied initial scalars are out of range and the tick is
skipped; see the counterexample.) -/
theorem activity_range_invariant :
    (∀ (d : EyePos) (rL rR : ℚ) (s : BrainData),
      updateBrainValues d rL rR s ≠ s →
      0.1 ≤ (updateBrainValues d rL rR s).left ∧
        (updateBrainValues d rL rR s).left ≤ 0.95 ∧
        0.1 ≤ (updateBrainValues d rL rR s).right ∧
        (updateBrainValues d rL rR s).right ≤ 0.95) ∧
    (∀ (ticks : List (EyePos × ℚ × ℚ)) (s : BrainData),
      0.1 ≤ s.left → s.left ≤ 0.95 → 0.1 ≤ s.right → s.right ≤ 0.95 →
      0.1 ≤ (runTicks ticks s).left ∧ (runTicks ticks s).left ≤ 0.95 ∧
        0.1 ≤ (runTicks ticks s).right ∧ (runTicks ticks s).right ≤ 0.95) := by
  refine ⟨updateBrainValues_range_step, ?_⟩
  intro ticks
  induction ticks with
  | nil => intro s h1 h2 h3 h4; exact ⟨h1, h2, h3, h4⟩
  | cons t ts ih =>
    intro s h1 h2 h3 h4
    have hstep := updateBrainValues_range_preserve t.1 t.2.1 t.2.2 s h1 h2 h3 h4
    have : runTicks (t :: ts) s = runTicks ts (updateBrainValues t.1 t.2.1 t.2.2 s) := rfl
    rw [this]
    exact ih _ hstep.1 hstep.2.1 hstep.2.2.1 hstep.2.2.2

/-- C3 witness: a concrete in-range start stays in range after a tick. -/
theorem activity_range_invariant_witness :
    0.1 ≤ (runTicks [(.left, 0, 0)] ⟨0.5, 0.5, "balanced"⟩).left ∧
      (runTicks [(.left, 0, 0)] ⟨0.5, 0.5, "balanced"⟩).left ≤ 0.95 ∧
      0.1 ≤ (runTicks [(.left, 0, 0)] ⟨0.5, 0.5, "balanced"⟩).right ∧
      (runTicks [(.left, 0, 0)] ⟨0.5, 0.5, "balanced"⟩).right ≤ 0.95 :=
  activity_range_invariant.2 [(.left, 0, 0)] ⟨0.5, 0.5, "balanced"⟩
    (by norm_num) (by norm_num) (by norm_num) (by norm_num)

/-- C3 counterexample: with the remote-supplied state `left = 0.9505`,
`right = 0.25` (out of range), direction `right` and `Math.random()` draws
5/6 (jitter +0.01), the change test fails (`|0.95 − 0.9505| = 0.0005` and
`|0.25 − 0.25| = 0`), the tick is skipped, and after the tick the left scalar
is still 0.9505 > 0.95 — refuting the unamended claim after one tick. -/
theorem activity_range_counterexample :
    (0 : ℚ) ≤ 0.85 ∧ (0.85 : ℚ) < 1 ∧ (0 : ℚ) ≤ 0.84 ∧ (0.84 : ℚ) < 1 ∧
    updateBrainValues .right 0.85 0.84 ⟨0.9505, 0.25, "balanced"⟩ =
      ⟨0.9505, 0.25, "balanced"⟩ ∧
    ¬((updateBrainValues .right 0.85 0.84 ⟨0.9505, 0.25, "balanced"⟩).left ≤ 0.95) := by
  have eL : clampActivity (rawLeft .right ⟨0.9505, 0.25, "balanced"⟩ + jitterOf 0.85) =
      0.95 := by
    norm_num [clampActivity, rawLeft, jitterOf, min_def, max_def]
  have eR : clampActivity (rawRight .right ⟨0.9505, 0.25, "balanced"⟩ + jitterOf 0.84) =
      0.2502 := by
    norm_num [clampActivity, rawRight, jitterOf, min_def, max_def]
  have hskip : updateBrainValues .right 0.85 0.84 ⟨0.9505, 0.25, "balanced"⟩ =
      ⟨0.9505, 0.25, "balanced"⟩ := by
    unfold updateBrainValues
    rw [if_neg]
    push_neg
    rw [eL, eR]
    constructor
    · rw [abs_le]; constructor <;> norm_num
    · rw [abs_le]; constructor <;> norm_num
  refine ⟨by norm_num, by norm_num, by norm_num, by norm_num, hskip, ?_⟩
  rw [hskip]
  norm_num

/-- C5: one smoothing tick computes exactly the claimed update — the
direction-dependent raw formulas, plus independent jitter lying in
[−0.015, +0.015], clamped to [0.1, 0.95], with the label recomputed as
`analytical` if `left > right * 1.2`, `creative` if `right > left * 1.2`,
else `balanced` on commit. -/
theorem updateBrainValues_formula (d : EyePos) (rL rR : ℚ) (s : BrainData)
    (h0L : 0 ≤ rL) (h1L : rL < 1) (h0R : 0 ≤ rR) (h1R : rR < 1) :
    (-(0.015 : ℚ) ≤ jitterOf rL ∧ jitterOf rL ≤ 0.015 ∧
      -(0.015 : ℚ) ≤ jitterOf rR ∧ jitterOf rR ≤ 0.015) ∧
    updateBrainValues d rL rR s = claimTick d (jitterOf rL) (jitterOf rR) s := by
  constructor
  · unfold jitterOf
    refine ⟨by linarith, by linarith, by linarith, by linarith⟩
  · have hpair : claimRawPair d s.left s.right = (rawLeft d s, rawRight d s) := by
      cases d <;> simp only [claimRawPair, rawLeft, rawRight, Prod.mk.injEq] <;>
        exact ⟨by ring, by ring⟩
    unfold claimTick
    rw [hpair]
    rfl

/-- C5 witness: the tick equality at a concrete input. -/
theorem updateBrainValues_formula_witness :
    (-(0.015 : ℚ) ≤ jitterOf 0.5 ∧ jitterOf (0.5 : ℚ) ≤ 0.015 ∧
      -(0.015 : ℚ) ≤ jitterOf 0.5 ∧ jitterOf (0.5 : ℚ) ≤ 0.015) ∧
    updateBrainValues .left 0.5 0.5 ⟨0.5, 0.5, "balanced"⟩ =
      claimTick .left (jitterOf 0.5) (jitterOf 0.5) ⟨0.5, 0.5, "balanced"⟩ :=
  updateBrainValues_formula .left 0.5 0.5 ⟨0.5, 0.5, "balanced"⟩
    (by norm_num) (by norm_num) (by norm_num) (by norm_num)

/-- C6: a smoothing tick is a no-op — the state is returned unchanged, so
`setBrainData` is never called and no re-render is triggered — whenever the
resulting change in each scalar (post-jitter, post-clamp candidate against the
current value) is below 0.001. -/
theorem updateBrainValues_noop (d : EyePos) (rL rR : ℚ) (s : BrainData)
    (hL : |clampActivity (rawLeft d s + jitterOf rL) - s.left| < 0.001)
    (hR : |clampActivity (rawRight d s + jitterOf rR) - s.right| < 0.001) :
    updateBrainValues d rL rR s = s := by
  have h : ¬(|clampActivity (rawLeft d s + jitterOf rL) - s.left| > 0.001 ∨
      |clampActivity (rawRight d s + jitterOf rR) - s.right| > 0.001) := by
    push_neg
    exact ⟨le_of_lt hL, le_of_lt hR⟩
  unfold updateBrainValues
  rw [if_neg h]

/-- C6 witness: a near-stationary concrete state is left untouched. -/
theorem updateBrainValues_noop_witness :
    updateBrainValues .center 0.5 0.5 ⟨0.6, 0.65, "balanced"⟩ = ⟨0.6, 0.65, "balanced"⟩ := by
  have eL : clampActivity (rawLeft .center ⟨0.6, 0.65, "balanced"⟩ + jitterOf 0.5) = 0.6 := by
    norm_num [clampActivity, rawLeft, jitterOf, min_def, max_def]
  have eR : clampActivity (rawRight .center ⟨0.6, 0.65, "balanced"⟩ + jitterOf 0.5) = 0.65 := by
    norm_num [clampActivity, rawRight, jitterOf, min_def, max_def]
  exact updateBrainValues_noop .center 0.5 0.5 ⟨0.6, 0.65, "balanced"⟩
    (by rw [eL]; norm_num) (by rw [eR]; norm_num)

/-- C10: the dominance classification is `null` without brain data and
otherwise follows the additive-0.1 rule — `left` iff `left > right + 0.1`,
`right` iff `right > left + 0.1`, else `balanced` — which is a different rule
from the multiplicative-1.2 activity label, and the two can disagree on the
same scalars. -/
theorem getBrainSide_spec :
    getBrainSide none = none ∧
    (∀ d : BrainData,
      (getBrainSide (some d) = some "left" ↔ d.left > d.right + 0.1) ∧
      (getBrainSide (some d) = some "right" ↔ d.right > d.left + 0.1) ∧
      (getBrainSide (some d) = some "balanced" ↔
        ¬(d.left > d.right + 0.1) ∧ ¬(d.right > d.left + 0.1))) ∧
    (∃ d : BrainData,
      getBrainSide (some d) = some "left" ∧ stateLabel d.left d.right = "balanced") := by
  refine ⟨rfl, ?_, ⟨⟨0.71, 0.6, "balanced"⟩, ?_, ?_⟩⟩
  case refine_2 => norm_num [getBrainSide]
  case refine_3 => norm_num [stateLabel]
  intro d
  simp only [getBrainSide]
  split_ifs with hL hR
  · have hR2 : ¬(d.right > d.left + 0.1) := by linarith
    simp [hL, hR2]
  · have hL2 : ¬(d.left > d.right + 0.1) := hL
    simp [hL2, hR]
  · simp [hL, hR]

/-- C1 (amended): on a poll where both endpoints fail without throwing, the
error counter increments (by exactly 1, recording the new timestamp) only when
strictly more than 5000ms have elapsed since the last recorded error — at most
once per rolling 5-second window; but a poll that fails by throwing increments
the counter unconditionally, with no rate limit. -/
theorem fetchData_rate_limit (s : Session) (now : ℤ) :
    ((fetchData s .failResp now).errorCount > s.errorCount →
      now - s.lastErrorTime > 5000 ∧
      (fetchData s .failResp now).errorCount = s.errorCount + 1 ∧
      (fetchData s .failResp now).lastErrorTime = now) ∧
    (fetchData s .throwErr now).errorCount = s.errorCount + 1 := by
  constructor
  · intro h
    unfold fetchData at h ⊢
    split_ifs at h ⊢ with h1 h2 <;> simp_all <;> omega
  · rfl

/-- C1 witness: when the window has elapsed, a non-throwing failed poll
increments and restamps. -/
theorem fetchData_rate_limit_witness :
    (6000 : ℤ) - freshSession.lastErrorTime > 5000 ∧
    (fetchData freshSession .failResp 6000).errorCount = freshSession.errorCount + 1 ∧
    (fetchData freshSession .failResp 6000).lastErrorTime = 6000 :=
  (fetchData_rate_limit freshSession 6000).1 (by decide)

/-- C1 counterexample: two polls that throw 200ms apart each increment the
counter — it rises by 2 inside a single 5-second window, refuting the claimed
rate limit for throwing polls. -/
theorem fetchData_throw_counterexample :
    freshSession.errorCount = 0 ∧ freshSession.lastErrorTime = 0 ∧
    (pollRun freshSession [(.throwErr, 200), (.throwErr, 400)]).errorCount = 2 ∧
    (400 : ℤ) - 0 < 5000 := by
  decide

/-- C2 (amended): the automatic circuit breaker fires only on the path where
both endpoints fail without throwing, and it tests the error count captured
before the current poll: such a poll beginning with `errorCount > 5` resets
the session (connected := false, brain data and error counter cleared).  A
poll that throws leaves `connected` and `brainData` untouched and increments
the counter, so errors accumulated through throwing polls never trigger the
breaker by themselves. -/
theorem fetchData_circuit_breaker (s : Session) (now : ℤ) :
    (s.errorCount > 5 →
      (fetchData s .failResp now).connected = false ∧
      (fetchData s .failResp now).brainData = none ∧
      (fetchData s .failResp now).errorCount = 0) ∧
    ((fetchData s .throwErr now).connected = s.connected ∧
      (fetchData s .throwErr now).brainData = s.brainData ∧
      (fetchData s .throwErr now).errorCount = s.errorCount + 1) := by
  constructor
  · intro h
    unfold fetchData
    split_ifs <;> simp_all
  · exact ⟨rfl, rfl, rfl⟩

/-- C2 witness: a non-throwing failed poll with the counter already past 5
resets the session. -/
theorem fetchData_circuit_breaker_witness :
    (fetchData ⟨true, some ⟨0.5, 0.5, "balanced"⟩, 6, 0⟩ .failResp 200).connected = false ∧
    (fetchData ⟨true, some ⟨0.5, 0.5, "balanced"⟩, 6, 0⟩ .failResp 200).brainData = none ∧
    (fetchData ⟨true, some ⟨0.5, 0.5, "balanced"⟩, 6, 0⟩ .failResp 200).errorCount = 0 :=
  (fetchData_circuit_breaker ⟨true, some ⟨0.5, 0.5, "balanced"⟩, 6, 0⟩ 200).1 (by decide)

/-- C2 counterexample: six polls that throw drive the counter to 6 (> 5) with
the session still connected, and a seventh throwing poll still does not reset
— the breaker does not fire on the throwing path that raised the counter past
5. -/
theorem fetchData_no_reset_counterexample :
    (pollRun freshSession [(.throwErr, 200), (.throwErr, 400), (.throwErr, 600),
        (.throwErr, 800), (.throwErr, 1000), (.throwErr, 1200)]).errorCount = 6 ∧
    (pollRun freshSession [(.throwErr, 200), (.throwErr, 400), (.throwErr, 600),
        (.throwErr, 800), (.throwErr, 1000), (.throwErr, 1200)]).connected = true ∧
    (fetchData (pollRun freshSession [(.throwErr, 200), (.throwErr, 400), (.throwErr, 600),
        (.throwErr, 800), (.throwErr, 1000), (.throwErr, 1200)]) .throwErr 1400).connected = true ∧
    (fetchData (pollRun freshSession [(.throwErr, 200), (.throwErr, 400), (.throwErr, 600),
        (.throwErr, 800), (.throwErr, 1000), (.throwErr, 1200)]) .throwErr 1400).errorCount = 7 := by
  decide

/-- When the frame qualifies as a left sample — `leftRatio > 1.1` and
`left > right * 1.1` — the vote goes to the left counter. -/
theorem voteTarget_left (b : Brightness)
    (h1 : jsRatioGT b.left (b.center * 0.8) 1.1) (h2 : b.left > b.right * 1.1) :
    voteTarget b = .left := by
  unfold voteTarget
  rw [if_pos ⟨h1, h2⟩]

set_option maxRecDepth 4000 in
/-- Exhaustive check over the reachable counter box [0,5]³: one estimator step
keeps every counter in [0, 5]. -/
theorem voteStep_bounds_dec :
    ∀ l ∈ Finset.Icc (0 : ℤ) 5, ∀ r ∈ Finset.Icc (0 : ℤ) 5, ∀ c ∈ Finset.Icc (0 : ℤ) 5,
      ∀ (p dir : EyePos),
        (voteStep p ⟨⟨l, r, c⟩, dir⟩).counter.left ∈ Finset.Icc (0 : ℤ) 5 ∧
        (voteStep p ⟨⟨l, r, c⟩, dir⟩).counter.right ∈ Finset.Icc (0 : ℤ) 5 ∧
        (voteStep p ⟨⟨l, r, c⟩, dir⟩).counter.center ∈ Finset.Icc (0 : ℤ) 5 := by
  decide

set_option maxRecDepth 4000 in
/-- Exhaustive check over [0,5]³: six consecutive left-vote steps commit the
direction `left`, from any starting counters and any starting direction. -/
theorem voteStep_sixLeft_dec :
    ∀ l ∈ Finset.Icc (0 : ℤ) 5, ∀ r ∈ Finset.Icc (0 : ℤ) 5, ∀ c ∈ Finset.Icc (0 : ℤ) 5,
      ∀ dir : EyePos,
        ((voteStep .left)^[6] ⟨⟨l, r, c⟩, dir⟩).direction = .left := by
  decide

set_option maxRecDepth 4000 in
/-- Exhaustive check over [0,5]³: if a single step changes the committed
direction, the counter of the newly committed direction already stood at 5. -/
theorem voteStep_change_dec :
    ∀ l ∈ Finset.Icc (0 : ℤ) 5, ∀ r ∈ Finset.Icc (0 : ℤ) 5, ∀ c ∈ Finset.Icc (0 : ℤ) 5,
      ∀ (p dir : EyePos),
        (voteStep p ⟨⟨l, r, c⟩, dir⟩).direction ≠ dir →
          counterOf ⟨l, r, c⟩ ((voteStep p ⟨⟨l, r, c⟩, dir⟩).direction) = 5 := by
  decide

set_option maxRecDepth 4000 in
/-- Exhaustive check over [0,5]³: a single step raises each counter by at
most one. -/
theorem voteStep_incr_dec :
    ∀ l ∈ Finset.Icc (0 : ℤ) 5, ∀ r ∈ Finset.Icc (0 : ℤ) 5, ∀ c ∈ Finset.Icc (0 : ℤ) 5,
      ∀ (p dir q : EyePos),
        counterOf (voteStep p ⟨⟨l, r, c⟩, dir⟩).counter q ≤ counterOf ⟨l, r, c⟩ q + 1 := by
  decide

/-- Every reachable estimator state has all three counters in [0, 5]. -/
theorem reach_bounds {s : EyeTrack} (h : Reachable s) :
    s.counter.left ∈ Finset.Icc (0 : ℤ) 5 ∧ s.counter.right ∈ Finset.Icc (0 : ℤ) 5 ∧
      s.counter.center ∈ Finset.Icc (0 : ℤ) 5 := by
  induction h with
  | init => decide
  | step b hs ih =>
    exact voteStep_bounds_dec _ ih.1 _ ih.2.1 _ ih.2.2 (voteTarget b) _

/-- C4: for every brightness triple with `left > right * 1.1` and
`left / (center * 0.8) > 1.1` (JavaScript division semantics), six consecutive
identical such samples commit the direction `left` from every reachable
estimator state, the initial state included; moreover a single frame can only
change the committed direction if the new direction's vote counter already
stood at 5, and no frame raises any counter by more than one — so a change of
direction needs at least six net votes, and a single-frame flicker can never
flip the reported direction. -/
theorem vote_convergence_debounce (b : Brightness)
    (h1 : jsRatioGT b.left (b.center * 0.8) 1.1) (h2 : b.left > b.right * 1.1) :
    (∀ s : EyeTrack, Reachable s → ((processVotes b)^[6] s).direction = .left) ∧
    (∀ (b2 : Brightness) (s : EyeTrack), Reachable s →
      (processVotes b2 s).direction ≠ s.direction →
      counterOf s.counter ((processVotes b2 s).direction) = 5) ∧
    (∀ (b2 : Brightness) (s : EyeTrack) (q : EyePos), Reachable s →
      counterOf (processVotes b2 s).counter q ≤ counterOf s.counter q + 1) := by
  have hfun : processVotes b = voteStep .left := by
    funext s
    show voteStep (voteTarget b) s = voteStep .left s
    rw [voteTarget_left b h1 h2]
  refine ⟨?_, ?_, ?_⟩
  · intro s hs
    obtain ⟨m1, m2, m3⟩ := reach_bounds hs
    rw [hfun]
    exact voteStep_sixLeft_dec _ m1 _ m2 _ m3 s.direction
  · intro b2 s hs hne
    obtain ⟨m1, m2, m3⟩ := reach_bounds hs
    exact voteStep_change_dec _ m1 _ m2 _ m3 (voteTarget b2) s.direction hne
  · intro b2 s q hs
    obtain ⟨m1, m2, m3⟩ := reach_bounds hs
    exact voteStep_incr_dec _ m1 _ m2 _ m3 (voteTarget b2) s.direction q

/-- C4 witness: the spec's own example sample `{left:120, center:90, right:80}`
drives the initial state to direction `left` in six frames. -/
theorem vote_convergence_debounce_witness :
    ((processVotes ⟨120, 90, 80⟩)^[6] initEyeTrack).direction = .left :=
  (vote_convergence_debounce ⟨120, 90, 80⟩
    (by unfold jsRatioGT; norm_num) (by norm_num)).1 initEyeTrack Reachable.init

/-- C7: given non-negative counters, one processed frame keeps all three
counters non-negative; and whenever the frame's vote pushes some counter past
5 a reset happens in the same frame: exactly one counter (the winning
direction's) is set to 2, the other two are set to 0, and the winning
direction is committed as the new reported direction. -/
theorem vote_counter_invariant (b : Brightness) (s : EyeTrack)
    (hl : 0 ≤ s.counter.left) (hr : 0 ≤ s.counter.right) (hc : 0 ≤ s.counter.center) :
    (0 ≤ (processVotes b s).counter.left ∧ 0 ≤ (processVotes b s).counter.right ∧
      0 ≤ (processVotes b s).counter.center) ∧
    ((5 < (applyVote (voteTarget b) s.counter).left ∨
      5 < (applyVote (voteTarget b) s.counter).right ∨
      5 < (applyVote (voteTarget b) s.counter).center) →
      ((processVotes b s).counter = ⟨2, 0, 0⟩ ∧ (processVotes b s).direction = .left) ∨
      ((processVotes b s).counter = ⟨0, 2, 0⟩ ∧ (processVotes b s).direction = .right) ∨
      ((processVotes b s).counter = ⟨0, 0, 2⟩ ∧ (processVotes b s).direction = .center)) := by
  have hnn : 0 ≤ (applyVote (voteTarget b) s.counter).left ∧
      0 ≤ (applyVote (voteTarget b) s.counter).right ∧
      0 ≤ (applyVote (voteTarget b) s.counter).center := by
    rcases voteTarget b <;> simp only [applyVote] <;>
      refine ⟨?_, ?_, ?_⟩ <;> omega
  unfold processVotes voteStep
  by_cases hmax : maxCount (applyVote (voteTarget b) s.counter) > 5
  · rw [if_pos hmax]
    constructor
    · rcases hw : commitDirection (applyVote (voteTarget b) s.counter) <;>
        simp [resetCounter]
    · intro _
      rcases hw : commitDirection (applyVote (voteTarget b) s.counter)
      · left; exact ⟨rfl, rfl⟩
      · right; left; exact ⟨rfl, rfl⟩
      · right; right; exact ⟨rfl, rfl⟩
  · rw [if_neg hmax]
    refine ⟨hnn, ?_⟩
    intro htrig
    exfalso
    unfold maxCount at hmax
    omega

/-- C7 witness: a frame voting left with the left counter at 5 triggers the
reset pattern — counters (2, 0, 0) and direction `left`. -/
theorem vote_counter_invariant_witness :
    (0 ≤ (processVotes ⟨120, 90, 80⟩ ⟨⟨5, 0, 0⟩, .center⟩).counter.left ∧
      0 ≤ (processVotes ⟨120, 90, 80⟩ ⟨⟨5, 0, 0⟩, .center⟩).counter.right ∧
      0 ≤ (processVotes ⟨120, 90, 80⟩ ⟨⟨5, 0, 0⟩, .center⟩).counter.center) ∧
    (((processVotes ⟨120, 90, 80⟩ ⟨⟨5, 0, 0⟩, .center⟩).counter = ⟨2, 0, 0⟩ ∧
        (processVotes ⟨120, 90, 80⟩ ⟨⟨5, 0, 0⟩, .center⟩).direction = .left) ∨
      ((processVotes ⟨120, 90, 80⟩ ⟨⟨5, 0, 0⟩, .center⟩).counter = ⟨0, 2, 0⟩ ∧
        (processVotes ⟨120, 90, 80⟩ ⟨⟨5, 0, 0⟩, .center⟩).direction = .right) ∨
      ((processVotes ⟨120, 90, 80⟩ ⟨⟨5, 0, 0⟩, .center⟩).counter = ⟨0, 0, 2⟩ ∧
        (processVotes ⟨120, 90, 80⟩ ⟨⟨5, 0, 0⟩, .center⟩).direction = .center)) := by
  have hvt : voteTarget ⟨120, 90, 80⟩ = .left := by
    unfold voteTarget jsRatioGT
    norm_num
  have h := vote_counter_invariant ⟨120, 90, 80⟩ ⟨⟨5, 0, 0⟩, .center⟩
    (by decide) (by decide) (by decide)
  refine ⟨h.1, h.2 ?_⟩
  rw [hvt]
  decide

/-- C8 (amended): a frame whose total brightness differs from the previous
frame's by more than 15 sets the blink flag at its time; when no other
crossing lies within 300ms of it (on either side), the flag stays true for the
whole 300ms and auto-clears exactly 300ms after being set, independently of
non-crossing frames in between.  (Without the isolation hypothesis the claim
fails: each crossing schedules its own independent clear, and a pending clear
from an earlier overlapping crossing clears the flag less than 300ms after a
later set — see the counterexample.) -/
theorem blink_clear_timing (frames : List (ℤ × ℚ)) (t0 : ℤ)
    (hmem : t0 ∈ crossingTimes frames)
    (hiso : ∀ t2 ∈ crossingTimes frames, t2 ≠ t0 → ¬(t0 - 300 ≤ t2 ∧ t2 ≤ t0 + 300)) :
    (∀ t ∈ crossingTimes frames, blinkAt (crossingTimes frames) t) ∧
    (∀ u : ℤ, t0 ≤ u → u < t0 + 300 → blinkAt (crossingTimes frames) u) ∧
    ¬ blinkAt (crossingTimes frames) (t0 + 300) := by
  refine ⟨?_, ?_, ?_⟩
  · intro t ht
    exact ⟨t, ht, le_refl t, fun t2 _ h => h⟩
  · intro u hu1 hu2
    refine ⟨t0, hmem, hu1, ?_⟩
    intro t2 ht2 hfire
    by_cases he : t2 = t0
    · subst he; omega
    · have := hiso t2 ht2 he
      omega
  · rintro ⟨t, htmem, htle, hall⟩
    have h1 : t0 + 300 ≤ t := hall t0 hmem (le_refl _)
    have h3 : t ≠ t0 := by omega
    have := hiso t htmem h3
    omega

/-- C8 witness: a single isolated crossing at time 0 keeps the flag set at
times 0 and 299 and cleared at time 300. -/
theorem blink_clear_timing_witness :
    blinkAt (crossingTimes [((0 : ℤ), (100 : ℚ))]) 0 ∧
    blinkAt (crossingTimes [((0 : ℤ), (100 : ℚ))]) 299 ∧
    ¬ blinkAt (crossingTimes [((0 : ℤ), (100 : ℚ))]) (0 + 300) := by
  have c1 : |(100 : ℚ) - 0| > 15 := by
    rw [abs_of_nonneg (by norm_num)]; norm_num
  have hts : crossingTimes [((0 : ℤ), (100 : ℚ))] = [0] := by
    simp [crossingTimes, crossingsAux, c1]
    norm_num
  have h := blink_clear_timing [((0 : ℤ), (100 : ℚ))] 0
    (by rw [hts]; exact List.mem_singleton.mpr rfl)
    (by rw [hts]; decide)
  exact ⟨h.2.1 0 (by omega) (by omega), h.2.1 299 (by omega) (by omega), h.2.2⟩

/-- C8 counterexample: crossings at times 0 and 200 (each total-brightness
jump exceeds 15).  The clear scheduled by the crossing at 0 fires at 300 and
clears the flag even though the flag was (re)set at 200 — the flag is false at
time 300, only 100ms after the set at 200, refuting the unamended claim that
it stays set for exactly 300ms after being set. -/
theorem blink_overlap_counterexample :
    crossingTimes [((0 : ℤ), (100 : ℚ)), (200, 200)] = [0, 200] ∧
    blinkAt [(0 : ℤ), 200] 200 ∧ (200 : ℤ) ≤ 300 ∧ (300 : ℤ) < 200 + 300 ∧
    ¬ blinkAt [(0 : ℤ), 200] 300 := by
  have c1 : |(100 : ℚ) - 0| > 15 := by
    rw [abs_of_nonneg (by norm_num)]; norm_num
  have c2 : |(200 : ℚ) - 100| > 15 := by
    rw [abs_of_nonneg (by norm_num)]; norm_num
  refine ⟨?_, by decide, by decide, by decide, by decide⟩
  simp [crossingTimes, crossingsAux, c1, c2]
  norm_num


/-- `getD` with default 0 through `drop`. -/
theorem getD_drop_zero (l : List ℚ) (n m : ℕ) : (l.drop n).getD m 0 = l.getD (n + m) 0 := by
  simp [List.getD_eq_getElem?_getD, List.getElem?_drop]

/-- Unfolding one 16-byte chunk of the claim-side sampled-luminance list. -/
theorem claimSampledLumas_cons (r g b : ℚ) (rest : List ℚ) :
    claimSampledLumas (r :: g :: b :: rest) =
      claimLuma r g b :: claimSampledLumas (rest.drop 13) := by
  have hdrop : rest.drop 13 = (r :: g :: b :: rest).drop 16 := rfl
  have hlen : ((r :: g :: b :: rest).length + 15) / 16 =
      ((rest.drop 13).length + 15) / 16 + 1 := by
    simp only [List.length_cons, List.length_drop]
    omega
  unfold claimSampledLumas
  rw [hlen, List.range_succ_eq_map, List.map_cons, List.map_map]
  refine congrArg₂ List.cons rfl ?_
  apply List.map_congr_left
  intro k hk
  simp only [Function.comp_apply, Nat.succ_eq_add_one]
  rw [hdrop, getD_drop_zero, getD_drop_zero, getD_drop_zero]
  have e1 : 16 * (k + 1) = 16 + 16 * k := by ring
  rw [e1]
  simp only [Nat.add_assoc]

/-- The source loop computes exactly the claim-side sampled-luminance sum and
count, for well-formed RGBA buffers. -/
theorem calcGo_eq : ∀ data : List ℚ, data.length % 4 = 0 →
    calcBrightnessGo data = ((claimSampledLumas data).sum, (claimSampledLumas data).length) := by
  intro data
  induction data using calcBrightnessGo.induct with
  | case1 r g b rest ih =>
    intro h4
    have h4r : (rest.drop 13).length % 4 = 0 := by
      simp only [List.length_cons] at h4
      simp only [List.length_drop]
      omega
    have hrec := ih h4r
    rw [claimSampledLumas_cons]
    simp only [calcBrightnessGo, hrec, List.sum_cons, List.length_cons, Prod.mk.injEq]
    exact ⟨by unfold claimLuma; ring, trivial⟩
  | case2 x hne =>
    intro h4
    rcases x with _ | ⟨a, _ | ⟨b, _ | ⟨c, t⟩⟩⟩
    · simp [calcBrightnessGo, claimSampledLumas]
    · simp at h4
    · simp at h4
    · exact absurd rfl (fun h => hne a b c t h)

/-- Sum bounds for a list of values in [0, 255]. -/
theorem lumas_sum_bounds (L : List ℚ) (h : ∀ y ∈ L, 0 ≤ y ∧ y ≤ 255) :
    0 ≤ L.sum ∧ L.sum ≤ 255 * L.length := by
  induction L with
  | nil => simp
  | cons a t ih =>
    have ha := h a (List.mem_cons_self a t)
    have ht := ih fun y hy => h y (List.mem_cons_of_mem a hy)
    simp only [List.sum_cons, List.length_cons]
    push_cast
    constructor
    · linarith [ha.1, ht.1]
    · linarith [ha.2, ht.2]

/-- Every sampled luminance of an in-range RGBA buffer lies in [0, 255]. -/
theorem claimSampledLumas_mem_bounds (data : List ℚ) (h4 : data.length % 4 = 0)
    (hb : ∀ x ∈ data, 0 ≤ x ∧ x ≤ 255) :
    ∀ y ∈ claimSampledLumas data, 0 ≤ y ∧ y ≤ 255 := by
  intro y hy
  simp only [claimSampledLumas, List.mem_map, List.mem_range] at hy
  obtain ⟨k, hk, rfl⟩ := hy
  have h1 : 16 * k < data.length := by omega
  have h2 : 16 * k + 1 < data.length := by omega
  have h3 : 16 * k + 2 < data.length := by omega
  rw [List.getD_eq_getElem data 0 h1, List.getD_eq_getElem data 0 h2,
    List.getD_eq_getElem data 0 h3]
  have b1 := hb _ (List.getElem_mem h1)
  have b2 := hb _ (List.getElem_mem h2)
  have b3 := hb _ (List.getElem_mem h3)
  unfold claimLuma
  constructor
  · have m1 := mul_nonneg (by norm_num : (0:ℚ) ≤ 0.299) b1.1
    have m2 := mul_nonneg (by norm_num : (0:ℚ) ≤ 0.587) b2.1
    have m3 := mul_nonneg (by norm_num : (0:ℚ) ≤ 0.114) b3.1
    linarith
  · have m1 := mul_le_mul_of_nonneg_left b1.2 (by norm_num : (0:ℚ) ≤ 0.299)
    have m2 := mul_le_mul_of_nonneg_left b2.2 (by norm_num : (0:ℚ) ≤ 0.587)
    have m3 := mul_le_mul_of_nonneg_left b3.2 (by norm_num : (0:ℚ) ≤ 0.114)
    linarith

/-- C9: for every well-formed RGBA buffer (length divisible by 4) whose bytes
lie in [0, 255], `calculateBrightness` equals the arithmetic mean over every
4th pixel of `0.299R + 0.587G + 0.114B`; the result always lies in [0, 255];
and the empty buffer — from which no pixel is sampled — yields 0 instead of a
division by zero. -/
theorem calculateBrightness_spec (data : List ℚ) (hlen : data.length % 4 = 0)
    (hb : ∀ x ∈ data, 0 ≤ x ∧ x ≤ 255) :
    calculateBrightness data = claimMeanBrightness data ∧
    0 ≤ calculateBrightness data ∧ calculateBrightness data ≤ 255 ∧
    (data = [] → calculateBrightness data = 0) := by
  have hgo := calcGo_eq data hlen
  have hmem := claimSampledLumas_mem_bounds data hlen hb
  have hsum := lumas_sum_bounds _ hmem
  have heq : calculateBrightness data = claimMeanBrightness data := by
    simp only [calculateBrightness, claimMeanBrightness, hgo]
    by_cases h0 : (claimSampledLumas data).length = 0
    · rw [if_neg (by omega), if_pos h0]
    · rw [if_pos (by omega), if_neg h0]
  have hn0 : data = [] → calculateBrightness data = 0 := by
    intro hd; subst hd
    simp [calculateBrightness, calcBrightnessGo]
  refine ⟨heq, ?_, ?_, hn0⟩
  · rw [heq]
    simp only [claimMeanBrightness]
    split_ifs with h0
    · norm_num
    · exact div_nonneg hsum.1 (by positivity)
  · rw [heq]
    simp only [claimMeanBrightness]
    split_ifs with h0
    · norm_num
    · have hpos : (0:ℚ) < ((claimSampledLumas data).length : ℚ) := by
        exact_mod_cast Nat.pos_of_ne_zero h0
      rw [div_le_iff₀ hpos]
      exact hsum.2

/-- C9 witness: a 20-byte buffer (5 pixels, 2 sampled). -/
theorem calculateBrightness_spec_witness :
    calculateBrightness [10, 20, 30, 255, 1, 2, 3, 4, 5, 6, 7, 8, 9, 10, 11, 12,
        100, 110, 120, 255] =
      claimMeanBrightness [10, 20, 30, 255, 1, 2, 3, 4, 5, 6, 7, 8, 9, 10, 11, 12,
        100, 110, 120, 255] ∧
    0 ≤ calculateBrightness [10, 20, 30, 255, 1, 2, 3, 4, 5, 6, 7, 8, 9, 10, 11, 12,
        100, 110, 120, 255] ∧
    calculateBrightness [10, 20, 30, 255, 1, 2, 3, 4, 5, 6, 7, 8, 9, 10, 11, 12,
        100, 110, 120, 255] ≤ 255 ∧
    ([(10:ℚ), 20, 30, 255, 1, 2, 3, 4, 5, 6, 7, 8, 9, 10, 11, 12,
        100, 110, 120, 255] = [] →
      calculateBrightness [10, 20, 30, 255, 1, 2, 3, 4, 5, 6, 7, 8, 9, 10, 11, 12,
        100, 110, 120, 255] = 0) :=
  calculateBrightness_spec _ (by decide)
    (by intro x hx; fin_cases hx <;> constructor <;> norm_num)

end BrainWave
